import Mathlib

/-!
Verification development for the PySheet table editor (src/Powerform.py).

The in-memory model (`pandas.DataFrame` with a row index, named columns and
string cells) is embedded as `Table`; the application state held by
`PySheetApp` (`self.dataframe`, `self.undo_stack`, `self.redo_stack`) is
embedded as `Session`.  Each definition below is translated from the named
function of `src/Powerform.py`; stacks are represented with the list head as
the top (Python appends/pops at the end of the list).
-/

set_option maxHeartbeats 1000000

/-- Excel-style column name, from `_to_excel_col` (Powerform.py lines 26-32):
repeated `divmod(n - 1, 26)` prepending `chr(65 + remainder)`.  The first
argument is fuel; since the quotient strictly decreases, `n` itself is enough
fuel, which keeps the definition structurally recursive and computable by
`decide`. -/
def toExcelColAux : Nat → Nat → List Char
  | 0, _ => []
  | _, 0 => []
  | fuel + 1, n => toExcelColAux fuel ((n - 1) / 26) ++ [Char.ofNat (65 + (n - 1) % 26)]

/-- Excel-style column name for a 1-based position (`_to_excel_col`). -/
def toExcelCol (n : Nat) : String := String.mk (toExcelColAux n n)

/-- The in-memory table: row index labels (`dataframe.index`), column names
(`dataframe.columns`) and the grid of string cells (`dataframe.values`).
After normalization row labels are the integers `0..N-1`, so they are
modelled as `Nat`. -/
structure Table where
  rowIds : List Nat
  colNames : List String
  cells : List (List String)
deriving DecidableEq, Repr

/-- A `pandas.DataFrame` is `empty` when it has zero rows or zero columns. -/
def Table.isEmpty (t : Table) : Bool := t.rowIds.isEmpty || t.colNames.isEmpty

/-- The `pd.DataFrame()` produced by the `open_file` failure handler. -/
def emptyTable : Table := ⟨[], [], []⟩

/-- From `_normalize_headers` (lines 858-872): when the frame is not empty,
rebuild it from its values with a fresh `RangeIndex` `0..N-1` and Excel-style
column names `A, B, ...` by position; cell contents are untouched. -/
def normalizeHeaders (t : Table) : Table :=
  if t.isEmpty then t
  else
    { rowIds := List.range t.cells.length
      colNames := (List.range t.colNames.length).map (fun i => toExcelCol (i + 1))
      cells := t.cells }

/-- A fresh `r × c` grid of empty strings with default integer row labels and
default (stringified positional) column names, as `pd.DataFrame(np.full(...))`
produces before normalization. -/
def blankTable (r c : Nat) : Table :=
  ⟨List.range r, (List.range c).map toString, List.replicate r (List.replicate c "")⟩

/-- The `pd.DataFrame([[""]])` used by the empty-table branches of
`_insert_row` / `_insert_column`. -/
def singleBlankTable : Table := ⟨[0], ["0"], [[""]]⟩

/-- Positional insertion used to model `pd.concat([iloc[:k], new, iloc[k:]])`
and `DataFrame.insert`: positions beyond the length append at the end, which
matches the clipping behaviour of `iloc` slices. -/
def insertAt {α : Type} (l : List α) (i : Nat) (a : α) : List α :=
  l.take i ++ a :: l.drop i

/-- Write value `v` at row position `r`, column position `c` of a grid;
out-of-range positions leave the grid unchanged (the source only reaches this
with validated positions). -/
def setAt (rows : List (List String)) (r c : Nat) (v : String) : List (List String) :=
  match rows.get? r with
  | none => rows
  | some row => rows.set r (row.set c v)

/-- Digit run to number, as `int` on a string of decimal digits. -/
def digitsToNat (cs : List Char) : Nat :=
  cs.foldl (fun a c => 10 * a + (c.toNat - 48)) 0

/-- Parse a tree item id (`int(item_id)`): the reachable ids are the decimal
numerals of the normalized row labels, so anything else fails. -/
def parseRowId (s : String) : Option Nat :=
  if s.isEmpty || !(s.data.all (·.isDigit)) then none else some (digitsToNat s.data)

/-- `dataframe.drop(i)`: remove every row whose label equals `i`
(labels are unique after normalization, so at most one). -/
def dropRowById (i : Nat) (t : Table) : Table :=
  let kept := ((t.rowIds.zip t.cells).filter (fun p => p.1 ≠ i))
  { rowIds := kept.map (·.1), colNames := t.colNames, cells := kept.map (·.2) }

/-- The row insertion of `_insert_row` (lines 1231-1234): concatenate the
slices around position `pos` with one blank row; the fresh row carries the
default label `0` before normalization. -/
def insertRowRaw (t : Table) (pos : Nat) : Table :=
  { rowIds := insertAt t.rowIds pos 0
    colNames := t.colNames
    cells := insertAt t.cells pos (List.replicate t.colNames.length "") }

/-- The column insertion of `_insert_column` (line 1266):
`dataframe.insert(pos, "__TEMP__...", "")` adds an all-empty column whose
temporary name is immediately discarded by normalization. -/
def insertColRaw (t : Table) (pos : Nat) : Table :=
  { rowIds := t.rowIds
    colNames := insertAt t.colNames pos "__TEMP__"
    cells := t.cells.map (fun row => insertAt row pos "") }

/-- `dataframe.drop(columns=[name])`: remove every column with that name. -/
def dropColByName (t : Table) (name : String) : Table :=
  { rowIds := t.rowIds
    colNames := t.colNames.filter (· ≠ name)
    cells := t.cells.map (fun row => ((t.colNames.zip row).filter (fun p => p.1 ≠ name)).map (·.2)) }

/-- The non-empty branch of `execute_extend` (lines 1002-1008): append `n`
blank rows (down) or `n` temporary blank columns (right). -/
def extendRaw (t : Table) (n : Nat) (down : Bool) : Table :=
  if down then
    { rowIds := t.rowIds ++ List.range n
      colNames := t.colNames
      cells := t.cells ++ List.replicate n (List.replicate t.colNames.length "") }
  else
    { rowIds := t.rowIds
      colNames := t.colNames ++ (List.range n).map (fun i => "__TEMP__" ++ toString i)
      cells := t.cells.map (fun row => row ++ List.replicate n "") }

/-- Write the fill data down a column starting at row position `r`,
column position `c` (`dataframe.iloc[r:r+len, c] = data`).  Only invoked on
in-range writes (guarded by `fillFits` in `applyPatternFill`): pandas raises
`ValueError` when the slice and the value differ in length, so the source
never performs a clipped write. -/
def writeDown (rows : List (List String)) (r c : Nat) : List String → List (List String)
  | [] => rows
  | v :: vs => writeDown (setAt rows r c v) (r + 1) c vs

/-- Write the fill data rightwards along a row starting at row position `r`,
column position `c` (`dataframe.iloc[r, c:c+len] = data`).  Only invoked on
in-range writes, as for `writeDown`. -/
def writeRight (rows : List (List String)) (r c : Nat) : List String → List (List String)
  | [] => rows
  | v :: vs => writeRight (setAt rows r c v) r (c + 1) vs

/-- The grid update performed by `apply_pattern_fill` (lines 980-987). -/
def writeFill (t : Table) (r c : Nat) (down : Bool) (data : List String) : Table :=
  { t with cells := if down then writeDown t.cells r c data else writeRight t.cells r c data }

/-- Whether the slice assignment of `apply_pattern_fill` succeeds: pandas
resolves `iloc[r:r+len, c] = data` (resp. `iloc[r, c:c+len] = data`) by
clipping the slice to the frame, then raises `ValueError` if the clipped
slice and `data` differ in length (and `IndexError` for an out-of-range
scalar index).  No cell is written and `_normalize_headers` is never reached
when this is false. -/
def fillFits (t : Table) (r c : Nat) (down : Bool) (len : Nat) : Bool :=
  if down then decide (r + len ≤ t.cells.length ∧ c < t.colNames.length)
  else decide (c + len ≤ t.colNames.length ∧ r < t.cells.length)

/-- Apply a string transform to every cell (`astype(str).applymap(...)`). -/
def mapCells (f : String → String) (t : Table) : Table :=
  { t with cells := t.cells.map (fun row => row.map f) }

/-- Write `v` at the cell addressed by row label `rid` and column name `col`
(`dataframe.loc[rid, col] = v` on a validated coordinate). -/
def setCellVal (t : Table) (rid : Nat) (col : String) (v : String) : Table :=
  { t with cells := setAt t.cells (t.rowIds.findIdx (· == rid)) (t.colNames.findIdx (· == col)) v }

/-- The application session: live table plus the two history stacks of
`(description, snapshot)` pairs; list head is the stack top. -/
structure Session where
  df : Table
  undoStack : List (String × Table)
  redoStack : List (String × Table)
deriving DecidableEq, Repr

/-- The state at program start: empty frame, empty stacks. -/
def initSession : Session := ⟨emptyTable, [], []⟩

/-- `_add_to_undo` (lines 1139-1142): push the action onto the undo stack and
clear the redo stack. -/
def addToUndo (s : Session) (entry : String × Table) : Session :=
  { s with undoStack := entry :: s.undoStack, redoStack := [] }

/-- The common shape of every history-recording mutation: push the
pre-mutation snapshot via `_add_to_undo`, then install the transformed
table as the live table. -/
def applyMutation (s : Session) (label : String) (f : Table → Table) : Session :=
  { df := f s.df, undoStack := (label, s.df) :: s.undoStack, redoStack := [] }

/-- `undo_action` (lines 1144-1150): if the undo stack is non-empty, pop its
top snapshot, push the current live table onto redo, and restore the
snapshot. -/
def undoAction (s : Session) : Session :=
  match s.undoStack with
  | [] => s
  | e :: rest => { df := e.2, undoStack := rest, redoStack := (e.1, s.df) :: s.redoStack }

/-- `redo_action` (lines 1152-1158), symmetric to `undo_action`. -/
def redoAction (s : Session) : Session :=
  match s.redoStack with
  | [] => s
  | e :: rest => { df := e.2, undoStack := (e.1, s.df) :: s.undoStack, redoStack := rest }

/-- Fold a list of labelled table transforms over a session, each applied as a
history-recording mutation. -/
def applyAll (ms : List (String × (Table → Table))) (s : Session) : Session :=
  ms.foldl (fun st m => applyMutation st m.1 m.2) s

/-- Cell edit (`_edit_cell_popup` / `_update_cell_from_input` /
`_apply_change`): the coordinate is resolved before anything is pushed, so an
unresolvable coordinate leaves the session untouched; a valid one pushes the
snapshot and overwrites the cell. -/
def editCell (s : Session) (rid : Nat) (col : String) (v : String) : Session :=
  if rid ∈ s.df.rowIds ∧ col ∈ s.df.colNames then
    applyMutation s "編輯儲存格" (fun t => setCellVal t rid col v)
  else s

/-- `_delete_row` (lines 1202-1211).  Note the order faithfully kept from the
source: the snapshot is pushed by `_add_to_undo` BEFORE `int(...)` and
`dataframe.drop(...)` are attempted, so a failing parse or an absent label
returns with the push already performed. -/
def deleteRow (s : Session) (ctx : Option String) : Session :=
  match ctx with
  | none => s
  | some tok =>
    if tok = "" then s
    else
      let s1 := addToUndo s ("刪除行", s.df)
      match parseRowId tok with
      | none => s1
      | some i =>
        if i ∈ s1.df.rowIds then
          { s1 with df := normalizeHeaders (dropRowById i s1.df) }
        else s1

/-- `_insert_row` (lines 1213-1236): the snapshot is pushed first; an empty
frame becomes a normalized 1×1 blank grid, otherwise one blank row is
inserted at the position derived from the context row and `above`. -/
def insertRow (s : Session) (ctxPos : Option Nat) (above : Bool) : Session :=
  let s1 := addToUndo s ("插入行", s.df)
  if s1.df.isEmpty then { s1 with df := normalizeHeaders singleBlankTable }
  else
    let pos := match ctxPos with
      | some p => if above then p else p + 1
      | none => s1.df.cells.length
    { s1 with df := normalizeHeaders (insertRowRaw s1.df pos) }

/-- `_insert_column` (lines 1247-1268): on an empty frame the table becomes a
normalized 1×1 blank grid WITHOUT any history push; otherwise the snapshot is
pushed and a temporary column is inserted, then normalized. -/
def insertColumn (s : Session) (ctxIdx : Option Nat) (left : Bool) : Session :=
  if s.df.isEmpty then { s with df := normalizeHeaders singleBlankTable }
  else
    let s1 := addToUndo s ("插入列", s.df)
    let pos := match ctxIdx with
      | some ci => if left then ci else ci + 1
      | none => s1.df.colNames.length
    { s1 with df := normalizeHeaders (insertColRaw s1.df pos) }

/-- `_delete_column` (lines 1238-1245), after the user confirms. -/
def deleteColumn (s : Session) (ctxCol : Option String) (confirm : Bool) : Session :=
  match ctxCol with
  | none => s
  | some name =>
    if confirm then
      let s1 := addToUndo s ("刪除列", s.df)
      { s1 with df := normalizeHeaders (dropColByName s1.df name) }
    else s

/-- `execute_extend` (lines 995-1011): on an empty frame a fresh blank grid is
created WITHOUT any history push; otherwise the snapshot is pushed and the
frame is extended, then normalized. -/
def extendTable (s : Session) (count : Nat) (down : Bool) : Session :=
  if s.df.isEmpty then
    { s with df := normalizeHeaders (if down then blankTable count 1 else blankTable 1 count) }
  else
    let s1 := addToUndo s ("擴展表格", s.df)
    { s1 with df := normalizeHeaders (extendRaw s1.df count down) }

/-- `apply_pattern_fill` (lines 963-990) after the anchor coordinate has been
resolved (resolution failure returns before the push in the source): push the
snapshot, then perform the `iloc` slice assignment and normalize.  When the
data does not fit the frame the assignment raises (`ValueError`), so the
table is left unwritten and un-normalized — but the snapshot has already been
pushed and the redo stack cleared. -/
def applyPatternFill (s : Session) (rPos cPos : Nat) (down : Bool) (data : List String) : Session :=
  let s1 := addToUndo s ("範式填充", s.df)
  if fillFits s.df rPos cPos down data.length then
    { s1 with df := normalizeHeaders (writeFill s.df rPos cPos down data) }
  else s1

/-- `replace_all` (lines 1094-1106): push, replace every occurrence in every
cell; if no cell changed, pop the freshly pushed undo entry back off (the
redo stack stays cleared). -/
def replaceAllOp (s : Session) (ft rt : String) : Session :=
  if ft = "" then s
  else
    let newDf := mapCells (fun v => v.replace ft rt) s.df
    if newDf.cells = s.df.cells then { s with redoStack := [] }
    else { df := newDf, undoStack := ("replace_all", s.df) :: s.undoStack, redoStack := [] }

/-- `new_file` (lines 1311-1317): fresh normalized 2×2 blank grid, both
stacks cleared. -/
def newFileOp (_s : Session) : Session :=
  ⟨normalizeHeaders ⟨[0, 1], ["0", "1"], [["", ""], ["", ""]]⟩, [], []⟩

/-- `open_file` (lines 1319-1338).  The parse result of the chosen file is the
`Option Table` argument.  On success the loaded frame (cells already strings)
is normalized and installed and BOTH stacks are cleared; on failure the
handler executes `self.dataframe = pd.DataFrame()` — the live table becomes
the empty frame while the stacks are left as they were. -/
def openFileOp (s : Session) (result : Option Table) : Session :=
  match result with
  | some t => ⟨normalizeHeaders t, [], []⟩
  | none => { s with df := emptyTable }

/-- The three tabs of `PatternFillDialog`: 複製 (copy), 遞推 (arithmetic
progression), 循環 (bounded cyclic). -/
inductive FillMode
  | copy
  | seq
  | cycle
deriving DecidableEq, Repr

/-- The codepoint ranges of the Unicode `Nd` (decimal digit) category
(Unicode 15.0, as shipped with current CPython); each run starts at the digit
of value 0 and cycles `0..9`, so the digit value of a character is its offset
into its run modulo 10.  Python's regex class `\d` and `int()` both accept
exactly these characters as digits. -/
def ndRanges : List (Nat × Nat) :=
  [(0x30, 0x39), (0x660, 0x669), (0x6F0, 0x6F9), (0x7C0, 0x7C9), (0x966, 0x96F),
   (0x9E6, 0x9EF), (0xA66, 0xA6F), (0xAE6, 0xAEF), (0xB66, 0xB6F), (0xBE6, 0xBEF),
   (0xC66, 0xC6F), (0xCE6, 0xCEF), (0xD66, 0xD6F), (0xDE6, 0xDEF), (0xE50, 0xE59),
   (0xED0, 0xED9), (0xF20, 0xF29), (0x1040, 0x1049), (0x1090, 0x1099), (0x17E0, 0x17E9),
   (0x1810, 0x1819), (0x1946, 0x194F), (0x19D0, 0x19D9), (0x1A80, 0x1A89),
   (0x1A90, 0x1A99), (0x1B50, 0x1B59), (0x1BB0, 0x1BB9), (0x1C40, 0x1C49),
   (0x1C50, 0x1C59), (0xA620, 0xA629), (0xA8D0, 0xA8D9), (0xA900, 0xA909),
   (0xA9D0, 0xA9D9), (0xA9F0, 0xA9F9), (0xAA50, 0xAA59), (0xABF0, 0xABF9),
   (0xFF10, 0xFF19), (0x104A0, 0x104A9), (0x10D30, 0x10D39), (0x11066, 0x1106F),
   (0x110F0, 0x110F9), (0x11136, 0x1113F), (0x111D0, 0x111D9), (0x112F0, 0x112F9),
   (0x11450, 0x11459), (0x114D0, 0x114D9), (0x11650, 0x11659), (0x116C0, 0x116C9),
   (0x11730, 0x11739), (0x118E0, 0x118E9), (0x11950, 0x11959), (0x11C50, 0x11C59),
   (0x11D50, 0x11D59), (0x11DA0, 0x11DA9), (0x11F50, 0x11F59), (0x16A60, 0x16A69),
   (0x16AC0, 0x16AC9), (0x16B50, 0x16B59), (0x1D7CE, 0x1D7FF), (0x1E140, 0x1E149),
   (0x1E2F0, 0x1E2F9), (0x1E4F0, 0x1E4F9), (0x1E950, 0x1E959), (0x1FBF0, 0x1FBF9)]

/-- Decimal value of a Unicode digit (`some v` exactly when the character is
in the `Nd` category, i.e. matches Python's `\d` and is accepted by
`int()`). -/
def pyDigitVal (c : Char) : Option Nat :=
  (ndRanges.find? (fun r => decide (r.1 ≤ c.toNat) && decide (c.toNat ≤ r.2))).map
    (fun r => (c.toNat - r.1) % 10)

/-- `int` on a run of Unicode decimal digits (the regex's digit group). -/
def ndDigitsToNat (cs : List Char) : Nat :=
  cs.foldl (fun a c => 10 * a + ((pyDigitVal c).getD 0)) 0

/-- The whitespace characters stripped by Python's `int(str)` conversion
(`Py_UNICODE_ISSPACE`). -/
def isPySpace (c : Char) : Bool :=
  (0x9 ≤ c.toNat && c.toNat ≤ 0xD) || (0x1C ≤ c.toNat && c.toNat ≤ 0x20) ||
  c.toNat = 0x85 || c.toNat = 0xA0 || c.toNat = 0x1680 ||
  (0x2000 ≤ c.toNat && c.toNat ≤ 0x200A) || c.toNat = 0x2028 || c.toNat = 0x2029 ||
  c.toNat = 0x202F || c.toNat = 0x205F || c.toNat = 0x3000

/-- Strip leading and trailing Python whitespace, as `int(str)` does. -/
def pyStrip (cs : List Char) : List Char :=
  ((cs.dropWhile isPySpace).reverse.dropWhile isPySpace).reverse

/-- Continue parsing a Python integer literal after its first digit:
digits, with single underscores allowed only between digits. -/
def pyDigitsTail : List Char → Nat → Option Nat
  | [], acc => some acc
  | '_' :: c :: cs, acc =>
    match pyDigitVal c with
    | none => none
    | some v => pyDigitsTail cs (10 * acc + v)
  | c :: cs, acc =>
    match pyDigitVal c with
    | none => none
    | some v => pyDigitsTail cs (10 * acc + v)

/-- Parse a non-empty run of Unicode digits with internal underscores. -/
def pyDigitsStart : List Char → Option Nat
  | [] => none
  | c :: cs =>
    match pyDigitVal c with
    | none => none
    | some v => pyDigitsTail cs v

/-- Python's `int(str)` conversion: strip surrounding whitespace, accept an
optional sign, then Unicode decimal digits with single underscores between
them; anything else raises `ValueError`.  This is the fallback
`_generate_fill_data` applies (lines 571-576) when the regex does not
match. -/
def pyIntOfString (s : String) : Option Int :=
  match pyStrip s.data with
  | [] => none
  | '+' :: rest => (pyDigitsStart rest).map (fun v => (v : Int))
  | '-' :: rest => (pyDigitsStart rest).map (fun v => -(v : Int))
  | cs => (pyDigitsStart cs).map (fun v => (v : Int))

/-- Drop one trailing newline (the list is REVERSED, so the head): `$` in
Python's regex matches at the end of the string or just before one final
newline. -/
def stripTrailingNewline (cs : List Char) : List Char :=
  match cs with
  | [] => []
  | c :: rest => if c = '\n' then rest else c :: rest

/-- The regex part of the seed decomposition of `_generate_fill_data`
(lines 564-567): `re.match(r'^(.*?)(\d+)$', s)` splits off the maximal
trailing run of Unicode decimal digits of the string (one final newline is
tolerated after the run, since `$` matches before it), provided the remaining
prefix contains no newline (`.` does not match `\n`; and since the lazy
prefix only grows during backtracking, a newline before the maximal run kills
every candidate match). -/
def decomposeSeed (s : String) : Option (String × Nat) :=
  let rev := stripTrailingNewline s.data.reverse
  let ds := rev.takeWhile (fun c => (pyDigitVal c).isSome)
  let pre := rev.dropWhile (fun c => (pyDigitVal c).isSome)
  if ds.isEmpty || pre.contains '\n' then none
  else some (String.mk pre.reverse, ndDigitsToNat ds.reverse)

/-- The full seed analysis of `_generate_fill_data` for the non-copy modes
(lines 564-576): use the regex decomposition when it matches, otherwise fall
back to `int(start_value)` with an empty prefix (this fallback accepts seeds
such as `"3 "` or `"-3"` that the regex rejects); fail only when both
fail. -/
def seedDecompose (s : String) : Option (String × Int) :=
  match decomposeSeed s with
  | some (p, n) => some (p, (n : Int))
  | none =>
    match pyIntOfString s with
    | some v => some ("", v)
    | none => none

/-- Arithmetic progression emission (遞推 loop, lines 589-591): emit
`prefix + str(current)`, then add the step. -/
def seqFill (pre : String) (step : Int) : Nat → Int → List String
  | 0, _ => []
  | k + 1, cur => (pre ++ toString cur) :: seqFill pre step k (cur + step)

/-- One step of the 循環 loop (lines 614-618): add the step, then wrap the
value back into `[lower, upper]` with the source's two modulo formulas. -/
def wrapStep (step lower upper cur : Int) : Int :=
  if cur + step > upper then lower + (cur + step - upper - 1) % (upper - lower + 1)
  else if cur + step < lower then upper - (lower - (cur + step) - 1) % (upper - lower + 1)
  else cur + step

/-- Bounded-cyclic emission (循環 loop, lines 612-618): emit
`prefix + str(current)`, then step-and-wrap. -/
def cyclicFill (pre : String) (step lower upper : Int) : Nat → Int → List String
  | 0, _ => []
  | k + 1, cur => (pre ++ toString cur) :: cyclicFill pre step lower upper k (wrapStep step lower upper cur)

/-- Wrap rule written from the specification text: leave an in-range value
alone, otherwise map it to `lower + (value - lower) mod span`, the canonical
modular wrap into `[lower, upper]`.  Kept separate from `wrapStep` (which is
the source's formula) so the two can be compared. -/
def specWrapStep (step lower upper cur : Int) : Int :=
  if lower ≤ cur + step ∧ cur + step ≤ upper then cur + step
  else lower + (cur + step - lower) % (upper - lower + 1)

/-- Bounded-cyclic emission using the specification's wrap rule; compared
against `cyclicFill`. -/
def specCyclicFill (pre : String) (step lower upper : Int) : Nat → Int → List String
  | 0, _ => []
  | k + 1, cur => (pre ++ toString cur) :: specCyclicFill pre step lower upper k (specWrapStep step lower upper cur)

/-- `_generate_fill_data` (lines 551-620) over already-parsed integer inputs:
`none` models the `return None` taken after each validation error.  Checks in
source order: `fill_count <= 0`; seed analysis (regex decomposition with
the `int(start_value)` fallback, needed for 遞推 and
循環); for 循環 additionally `lower >= upper`, seed numeric part outside
`[lower, upper]`, and span not strictly greater than `abs(step)`. -/
def generateFillData (mode : FillMode) (startValue : String) (count step lower upper : Int) :
    Option (List String) :=
  if count ≤ 0 then none
  else
    match mode with
    | FillMode.copy => some (List.replicate count.toNat startValue)
    | FillMode.seq =>
      match seedDecompose startValue with
      | none => none
      | some (p, n) => some (seqFill p step count.toNat n)
    | FillMode.cycle =>
      match seedDecompose startValue with
      | none => none
      | some (p, n) =>
        if upper ≤ lower then none
        else if n < lower ∨ upper < n then none
        else if upper - lower + 1 ≤ |step| then none
        else some (cyclicFill p step lower upper count.toNat n)

/-- `_apply_fill` (lines 642-649): generate the data; if generation failed,
nothing happens, otherwise hand the list to `apply_pattern_fill`. -/
def applyFillDialog (s : Session) (rPos cPos : Nat) (down : Bool) (mode : FillMode)
    (seed : String) (count step lower upper : Int) : Session :=
  match generateFillData mode seed count step lower upper with
  | none => s
  | some data => applyPatternFill s rPos cPos down data

/-- One row-update of the longest-common-subsequence dynamic program:
`prev` is the previous row from the current position on, `cur` the entry just
computed for the new row. -/
def lcsRow (c : Char) : List Char → List Nat → Nat → List Nat
  | [], _, _ => []
  | _ :: _, [], _ => []
  | b :: bs, p0 :: prest, cur =>
    let v := if c = b then p0 + 1 else max cur (prest.headD 0)
    v :: lcsRow c bs prest v

/-- Length of a longest common subsequence of two character lists. -/
def lcsLen (as bs : List Char) : Nat :=
  (as.foldl (fun row c => 0 :: lcsRow c bs row 0) (List.replicate (bs.length + 1) 0)).getLastD 0

/-- Round `num / den` to the nearest integer, ties to even, matching Python's
`int(round(x))` used by `fuzzywuzzy.utils.intr`. -/
def roundHalfEven (num den : Nat) : Nat :=
  let q := num / den
  let r := num % den
  if 2 * r < den then q
  else if den < 2 * r then q + 1
  else if q % 2 = 0 then q else q + 1

/-- The external similarity collaborator `fuzz.ratio(a, b)`: `100` for equal
strings, `0` when one side is empty, otherwise `round(100 * 2M / T)` where `M`
is the length of a longest common subsequence and `T` the total length — the
normalized edit-distance-based scale of both fuzzywuzzy backends
(`Levenshtein.ratio` and `difflib`) on the strings used here. -/
def fuzzScore (a b : String) : Nat :=
  if a = b then 100
  else if a.length = 0 ∨ b.length = 0 then 0
  else roundHalfEven (200 * lcsLen a.data b.data) (a.length + b.length)

/-- Python's `str.lower()` on the ASCII range: map `A..Z` to `a..z`. -/
def strLower (s : String) : String :=
  String.mk (s.data.map (fun c => if 65 ≤ c.toNat ∧ c.toNat ≤ 90 then Char.ofNat (c.toNat + 32) else c))

/-- The fuzzy branch of `find_next_header` (line 1069):
`process.fuzz.ratio(term.lower(), str(header).lower()) > 70`. -/
def fuzzyHeaderMatch (term header : String) : Bool :=
  decide (70 < fuzzScore (strLower term) (strLower header))

/-- The shape the normalization invariant asserts of a table `res` produced
from the raw mutated table `raw`: dense `0..N-1` row ids, canonical
Excel-style column names by position, and the cell grid of `raw` kept
verbatim. -/
def canonicalAfter (res raw : Table) : Prop :=
  res.rowIds = List.range raw.cells.length ∧
  res.colNames = (List.range raw.colNames.length).map (fun i => toExcelCol (i + 1)) ∧
  res.cells = raw.cells

/-! ## Theorems -/

theorem redo_of_undo (s : Session) (h : s.undoStack ≠ []) :
    redoAction (undoAction s) = s := by
  obtain ⟨df, us, rs⟩ := s
  cases us with
  | nil => exact absurd rfl h
  | cons e rest => rfl

theorem applyAll_cons (m : String × (Table → Table)) (ms : List (String × (Table → Table)))
    (s : Session) : applyAll (m :: ms) s = applyAll ms (applyMutation s m.1 m.2) := rfl

theorem applyAll_undoStack_length (ms : List (String × (Table → Table))) (s : Session) :
    (applyAll ms s).undoStack.length = s.undoStack.length + ms.length := by
  induction ms generalizing s with
  | nil => simp [applyAll]
  | cons m ms ih =>
    rw [applyAll_cons, ih]
    simp [applyMutation]
    omega

theorem undo_redo_iter : ∀ (n : Nat) (s : Session), n ≤ s.undoStack.length →
    redoAction^[n] (undoAction^[n] s) = s := by
  intro n
  induction n with
  | zero => intro s _; simp
  | succ k ih =>
    intro s hn
    have e1 : undoAction^[k + 1] s = undoAction^[k] (undoAction s) :=
      Function.iterate_succ_apply _ _ _
    have e2 : ∀ y, redoAction^[k + 1] y = redoAction (redoAction^[k] y) := fun y =>
      Function.iterate_succ_apply' _ _ _
    rw [e1, e2]
    have hne : s.undoStack ≠ [] := by
      intro he
      rw [he] at hn
      simp at hn
    have hlen : k ≤ (undoAction s).undoStack.length := by
      obtain ⟨df, us, rs⟩ := s
      cases us with
      | nil => exact absurd rfl hne
      | cons e rest =>
        simp [undoAction]
        simpa [List.length_cons] using hn
    rw [ih (undoAction s) hlen]
    exact redo_of_undo s hne

/-- C1 (amended): `undo_action` followed immediately by `redo_action` restores
the exact live table whenever the undo stack is non-empty; a validated cell
edit has exactly the history-recording shape `applyMutation`; and any sequence
of `n` history-recording mutations followed by `n` undos and `n` redos ends
with the live table equal to the table after the sequence.  (The unrestricted
claim fails for the mutations that bypass `_add_to_undo`, see the
counterexample.) -/
theorem claim_c1_undo_redo_roundtrip :
    (∀ s : Session, s.undoStack ≠ [] → (redoAction (undoAction s)).df = s.df) ∧
    (∀ (s : Session) (rid : Nat) (col v : String), rid ∈ s.df.rowIds → col ∈ s.df.colNames →
      editCell s rid col v = applyMutation s "編輯儲存格" (fun t => setCellVal t rid col v)) ∧
    (∀ (s : Session) (ms : List (String × (Table → Table))),
      (redoAction^[ms.length] (undoAction^[ms.length] (applyAll ms s))).df
        = (applyAll ms s).df) := by
  refine ⟨?_, ?_, ?_⟩
  · intro s h
    rw [redo_of_undo s h]
  · intro s rid col v h1 h2
    simp [editCell, h1, h2]
  · intro s ms
    rw [undo_redo_iter ms.length (applyAll ms s) (by rw [applyAll_undoStack_length]; omega)]

/-- Witness for C1 at a concrete session with a non-empty undo stack. -/
theorem claim_c1_undo_redo_roundtrip_witness :
    (redoAction (undoAction (editCell (newFileOp initSession) 0 "A" "x"))).df
      = (editCell (newFileOp initSession) 0 "A" "x").df :=
  claim_c1_undo_redo_roundtrip.1 (editCell (newFileOp initSession) 0 "A" "x") (by decide)

/-- C1 counterexample: from the reachable session obtained by `new_file`, one
cell edit, `undo_action`, and a failed `open_file` (which wipes the table but
keeps the stacks), the single mutation `execute_extend` (empty-table branch:
no history push) followed by one undo and one redo does NOT restore the table
the mutation produced. -/
theorem claim_c1_counterexample :
    (redoAction (undoAction (extendTable (openFileOp (undoAction
        (editCell (newFileOp initSession) 0 "A" "x")) none) 2 false))).df
      ≠ (extendTable (openFileOp (undoAction
        (editCell (newFileOp initSession) 0 "A" "x")) none) 2 false).df := by
  decide

/-- C2 (amended): a mutation that fails validation leaves the live table
unchanged, and most leave both stacks unchanged (pattern fill whose parameter
validation fails, cell edit with an unresolvable coordinate); but a failing
`_delete_row` has already pushed a snapshot of the unchanged table onto the
undo stack and cleared the redo stack before the failure is detected, and a
zero-match `replace_all` pops its own push back off yet leaves the redo stack
cleared. -/
theorem claim_c2_failed_validation :
    (∀ (s : Session) (tok : String), tok ≠ "" → parseRowId tok = none →
      deleteRow s (some tok) = ⟨s.df, ("刪除行", s.df) :: s.undoStack, []⟩) ∧
    (∀ (s : Session) (tok : String) (i : Nat), tok ≠ "" → parseRowId tok = some i →
      i ∉ s.df.rowIds →
      deleteRow s (some tok) = ⟨s.df, ("刪除行", s.df) :: s.undoStack, []⟩) ∧
    (∀ (s : Session) (rPos cPos : Nat) (down : Bool) (mode : FillMode) (seed : String)
      (count step lower upper : Int),
      generateFillData mode seed count step lower upper = none →
      applyFillDialog s rPos cPos down mode seed count step lower upper = s) ∧
    (∀ (s : Session) (rid : Nat) (col v : String),
      ¬(rid ∈ s.df.rowIds ∧ col ∈ s.df.colNames) → editCell s rid col v = s) ∧
    (∀ (s : Session) (ft rt : String), ft ≠ "" →
      (mapCells (fun x => x.replace ft rt) s.df).cells = s.df.cells →
      replaceAllOp s ft rt = { s with redoStack := [] }) := by
  refine ⟨?_, ?_, ?_, ?_, ?_⟩
  · intro s tok h1 h2
    simp [deleteRow, h1, h2, addToUndo]
  · intro s tok i h1 h2 h3
    simp [deleteRow, h1, h2, h3, addToUndo]
  · intro s rPos cPos down mode seed count step lower upper h
    simp [applyFillDialog, h]
  · intro s rid col v h
    simp [editCell, h]
  · intro s ft rt h1 h2
    simp [replaceAllOp, h1, h2]

/-- Witness for C2: the claim's own example, delete-row with an absent row
id, at a concrete session. -/
theorem claim_c2_failed_validation_witness :
    deleteRow (⟨⟨[0], ["A"], [["x"]]⟩, [], [("e", emptyTable)]⟩ : Session) (some "5")
      = ⟨⟨[0], ["A"], [["x"]]⟩, [("刪除行", ⟨[0], ["A"], [["x"]]⟩)], []⟩ :=
  claim_c2_failed_validation.2.1 ⟨⟨[0], ["A"], [["x"]]⟩, [], [("e", emptyTable)]⟩ "5" 5
    (by decide) (by decide) (by decide)

/-- C2 counterexample: delete-row with row id 5 on a table whose only row id
is 0 leaves the table unchanged but changes BOTH history stacks, refuting the
claim that a failing mutation leaves table, undo stack and redo stack
unchanged. -/
theorem claim_c2_counterexample :
    (deleteRow (⟨⟨[0], ["A"], [["x"]]⟩, [], [("e", ⟨[0], ["A"], [["y"]]⟩)]⟩ : Session)
        (some "5")).df
      = (⟨⟨[0], ["A"], [["x"]]⟩, [], [("e", ⟨[0], ["A"], [["y"]]⟩)]⟩ : Session).df ∧
    (deleteRow (⟨⟨[0], ["A"], [["x"]]⟩, [], [("e", ⟨[0], ["A"], [["y"]]⟩)]⟩ : Session)
        (some "5")).undoStack
      ≠ (⟨⟨[0], ["A"], [["x"]]⟩, [], [("e", ⟨[0], ["A"], [["y"]]⟩)]⟩ : Session).undoStack ∧
    (deleteRow (⟨⟨[0], ["A"], [["x"]]⟩, [], [("e", ⟨[0], ["A"], [["y"]]⟩)]⟩ : Session)
        (some "5")).redoStack
      ≠ (⟨⟨[0], ["A"], [["x"]]⟩, [], [("e", ⟨[0], ["A"], [["y"]]⟩)]⟩ : Session).redoStack := by
  decide

/-- C3 (amended): every mutation that records a history entry (the
`applyMutation` shape, in particular every validated cell edit, and
insert-column / extend on a NON-empty table) leaves the redo stack empty;
insert-column and extend applied to an empty table mutate the table without
touching the redo stack; and the concrete scenario of the claim — three
edits, one undo (redo size 1), one new edit (redo size 0) — holds. -/
theorem claim_c3_mutation_clears_redo :
    (∀ (s : Session) (label : String) (f : Table → Table),
      (applyMutation s label f).redoStack = []) ∧
    (∀ (s : Session) (rid : Nat) (col v : String), rid ∈ s.df.rowIds → col ∈ s.df.colNames →
      (editCell s rid col v).redoStack = []) ∧
    (∀ (s : Session) (ctx : Option Nat) (lf : Bool), s.df.isEmpty = false →
      (insertColumn s ctx lf).redoStack = []) ∧
    (∀ (s : Session) (n : Nat) (dir : Bool), s.df.isEmpty = false →
      (extendTable s n dir).redoStack = []) ∧
    (∀ (s : Session) (ctx : Option Nat) (lf : Bool), s.df.isEmpty = true →
      (insertColumn s ctx lf).redoStack = s.redoStack) ∧
    (∀ (s : Session) (n : Nat) (dir : Bool), s.df.isEmpty = true →
      (extendTable s n dir).redoStack = s.redoStack) ∧
    ((undoAction (editCell (editCell (editCell (newFileOp initSession) 0 "A" "1")
        0 "B" "2") 1 "A" "3")).redoStack.length = 1 ∧
     (editCell (undoAction (editCell (editCell (editCell (newFileOp initSession) 0 "A" "1")
        0 "B" "2") 1 "A" "3")) 1 "B" "4").redoStack.length = 0) := by
  refine ⟨?_, ?_, ?_, ?_, ?_, ?_, by decide⟩
  · intro s label f
    rfl
  · intro s rid col v h1 h2
    simp [editCell, h1, h2, applyMutation]
  · intro s ctx lf h
    simp [insertColumn, h, addToUndo]
  · intro s n dir h
    simp [extendTable, h, addToUndo]
  · intro s ctx lf h
    simp [insertColumn, h]
  · intro s n dir h
    simp [extendTable, h]

/-- Witness for C3 at a concrete validated edit. -/
theorem claim_c3_mutation_clears_redo_witness :
    (editCell (newFileOp initSession) 0 "A" "v").redoStack = [] :=
  claim_c3_mutation_clears_redo.2.1 (newFileOp initSession) 0 "A" "v" (by decide) (by decide)

/-- C3 counterexample: in the reachable session obtained by `new_file`, a cell
edit, `undo_action` and a failed `open_file`, the empty-table branch of
`_insert_column` is a successfully applied mutation (the table changes) after
which the redo stack is NOT empty. -/
theorem claim_c3_counterexample :
    (insertColumn (openFileOp (undoAction
        (editCell (newFileOp initSession) 0 "A" "x")) none) none true).redoStack ≠ [] ∧
    (insertColumn (openFileOp (undoAction
        (editCell (newFileOp initSession) 0 "A" "x")) none) none true).df
      ≠ (openFileOp (undoAction (editCell (newFileOp initSession) 0 "A" "x")) none).df := by
  decide

/-- C7 (amended): a successful load replaces the live table with the
normalized loaded table and clears both history stacks; a FAILED load does
not leave the live table unchanged — it replaces it with the empty frame —
while both history stacks are left untouched. -/
theorem claim_c7_load_behavior :
    (∀ (s : Session) (t : Table), openFileOp s (some t) = ⟨normalizeHeaders t, [], []⟩) ∧
    (∀ s : Session, openFileOp s none = { s with df := emptyTable }) ∧
    (∀ s : Session, s.df.isEmpty = false → (openFileOp s none).df ≠ s.df) := by
  refine ⟨fun s t => rfl, fun s => rfl, ?_⟩
  intro s h heq
  have h2 : s.df = emptyTable := heq.symm
  rw [h2] at h
  simp [emptyTable, Table.isEmpty] at h

/-- Witness for C7 at a concrete non-empty session. -/
theorem claim_c7_load_behavior_witness :
    (openFileOp (newFileOp initSession) none).df ≠ (newFileOp initSession).df :=
  claim_c7_load_behavior.2.2 (newFileOp initSession) (by decide)

/-- C7 counterexample: after an edit, a failed load changes the live table
(to the empty frame), refuting "on failure the live Table ... left
unchanged", while the undo stack is indeed kept. -/
theorem claim_c7_counterexample :
    (openFileOp (editCell (newFileOp initSession) 0 "A" "x") none).df
      ≠ (editCell (newFileOp initSession) 0 "A" "x").df ∧
    (openFileOp (editCell (newFileOp initSession) 0 "A" "x") none).undoStack
      = (editCell (newFileOp initSession) 0 "A" "x").undoStack := by
  decide

theorem insertAt_ne_nil {α : Type} (l : List α) (i : Nat) (a : α) : insertAt l i a ≠ [] := by
  intro h
  rcases List.append_eq_nil.mp h with ⟨_, h2⟩
  exact List.cons_ne_nil _ _ h2

theorem isEmpty_false_iff (t : Table) :
    t.isEmpty = false ↔ t.rowIds ≠ [] ∧ t.colNames ≠ [] := by
  obtain ⟨rs, cs, gs⟩ := t
  cases rs <;> cases cs <;> simp [Table.isEmpty]

theorem normalize_canonical (t : Table) (h : t.isEmpty = false) :
    canonicalAfter (normalizeHeaders t) t := by
  simp [canonicalAfter, normalizeHeaders, h]

/-- C4: after each structural mutation (delete row, insert row, insert
column, delete column, extend, pattern fill) whose intermediate result is a
non-empty frame, the live table's row identifiers are exactly `0..N-1`, its
column names are exactly the canonical base-26 letter sequence by position
(`A`, `B`, ..., `Z`, `AA`, ... — witnessed concretely in the first conjunct),
and the cell grid of the raw mutation is preserved verbatim by the renaming.
A pattern fill counts only when its data fits the frame: on overflow the
`iloc` assignment raises before writing, so no mutation (and no
normalization) takes place — the last conjunct pins that aborted path down
to "snapshot pushed, table untouched". -/
theorem claim_c4_normalization :
    (toExcelCol 1 = "A" ∧ toExcelCol 2 = "B" ∧ toExcelCol 26 = "Z" ∧
     toExcelCol 27 = "AA" ∧ toExcelCol 28 = "AB" ∧ toExcelCol 52 = "AZ" ∧
     toExcelCol 53 = "BA") ∧
    (∀ (s : Session) (tok : String) (i : Nat), tok ≠ "" → parseRowId tok = some i →
      i ∈ s.df.rowIds → (dropRowById i s.df).isEmpty = false →
      canonicalAfter (deleteRow s (some tok)).df (dropRowById i s.df)) ∧
    (∀ (s : Session) (p : Nat) (ab : Bool), s.df.isEmpty = false →
      canonicalAfter (insertRow s (some p) ab).df
        (insertRowRaw s.df (if ab then p else p + 1))) ∧
    (∀ (s : Session) (ci : Nat) (lf : Bool), s.df.isEmpty = false →
      canonicalAfter (insertColumn s (some ci) lf).df
        (insertColRaw s.df (if lf then ci else ci + 1))) ∧
    (∀ (s : Session) (name : String), s.df.isEmpty = false →
      (dropColByName s.df name).isEmpty = false →
      canonicalAfter (deleteColumn s (some name) true).df (dropColByName s.df name)) ∧
    (∀ (s : Session) (n : Nat) (dir : Bool), s.df.isEmpty = false →
      canonicalAfter (extendTable s n dir).df (extendRaw s.df n dir)) ∧
    (∀ (s : Session) (r c : Nat) (dir : Bool) (data : List String), s.df.isEmpty = false →
      fillFits s.df r c dir data.length = true →
      canonicalAfter (applyPatternFill s r c dir data).df (writeFill s.df r c dir data)) ∧
    (∀ (s : Session) (r c : Nat) (dir : Bool) (data : List String),
      fillFits s.df r c dir data.length = false →
      applyPatternFill s r c dir data = addToUndo s ("範式填充", s.df)) := by
  refine ⟨by decide, ?_, ?_, ?_, ?_, ?_, ?_, ?_⟩
  · intro s tok i h1 h2 h3 h4
    simp only [deleteRow, h1, h2, addToUndo, if_neg h1]
    simp [h3]
    exact normalize_canonical _ h4
  · intro s p ab h
    have hraw : (insertRowRaw s.df (if ab then p else p + 1)).isEmpty = false := by
      refine (isEmpty_false_iff _).mpr ⟨insertAt_ne_nil _ _ _, ?_⟩
      exact ((isEmpty_false_iff _).mp h).2
    simp only [insertRow, addToUndo, h, Bool.false_eq_true, if_false]
    exact normalize_canonical _ hraw
  · intro s ci lf h
    have hraw : (insertColRaw s.df (if lf then ci else ci + 1)).isEmpty = false := by
      refine (isEmpty_false_iff _).mpr ⟨((isEmpty_false_iff _).mp h).1, insertAt_ne_nil _ _ _⟩
    simp only [insertColumn, addToUndo, h, Bool.false_eq_true, if_false]
    exact normalize_canonical _ hraw
  · intro s name h h2
    simp only [deleteColumn, addToUndo, if_pos rfl]
    exact normalize_canonical _ h2
  · intro s n dir h
    have hraw : (extendRaw s.df n dir).isEmpty = false := by
      obtain ⟨h1, h2⟩ := (isEmpty_false_iff _).mp h
      cases dir <;> refine (isEmpty_false_iff _).mpr ⟨?_, ?_⟩ <;>
        simp [extendRaw, h1, h2]
    simp only [extendTable, addToUndo, h, Bool.false_eq_true, if_false]
    exact normalize_canonical _ hraw
  · intro s r c dir data h hfit
    have hraw : (writeFill s.df r c dir data).isEmpty = false := h
    simp only [applyPatternFill, addToUndo, hfit, if_true]
    exact normalize_canonical _ hraw
  · intro s r c dir data hfit
    simp [applyPatternFill, addToUndo, hfit]

/-- Witness for C4: every structural mutation instantiated on the fresh 2×2
table produced by `new_file`. -/
theorem claim_c4_normalization_witness :
    canonicalAfter (deleteRow (newFileOp initSession) (some "0")).df
      (dropRowById 0 (newFileOp initSession).df) ∧
    canonicalAfter (insertRow (newFileOp initSession) (some 0) true).df
      (insertRowRaw (newFileOp initSession).df 0) ∧
    canonicalAfter (insertColumn (newFileOp initSession) (some 0) true).df
      (insertColRaw (newFileOp initSession).df 0) ∧
    canonicalAfter (deleteColumn (newFileOp initSession) (some "A") true).df
      (dropColByName (newFileOp initSession).df "A") ∧
    canonicalAfter (extendTable (newFileOp initSession) 2 true).df
      (extendRaw (newFileOp initSession).df 2 true) ∧
    canonicalAfter (applyPatternFill (newFileOp initSession) 0 0 true ["a", "b"]).df
      (writeFill (newFileOp initSession).df 0 0 true ["a", "b"]) ∧
    applyPatternFill (newFileOp initSession) 0 0 true (List.replicate 10 "z")
      = addToUndo (newFileOp initSession) ("範式填充", (newFileOp initSession).df) :=
  ⟨claim_c4_normalization.2.1 (newFileOp initSession) "0" 0 (by decide) (by decide)
      (by decide) (by decide),
   claim_c4_normalization.2.2.1 (newFileOp initSession) 0 true (by decide),
   claim_c4_normalization.2.2.2.1 (newFileOp initSession) 0 true (by decide),
   claim_c4_normalization.2.2.2.2.1 (newFileOp initSession) "A" (by decide) (by decide),
   claim_c4_normalization.2.2.2.2.2.1 (newFileOp initSession) 2 true (by decide),
   claim_c4_normalization.2.2.2.2.2.2.1 (newFileOp initSession) 0 0 true ["a", "b"]
      (by decide) (by decide),
   claim_c4_normalization.2.2.2.2.2.2.2 (newFileOp initSession) 0 0 true
      (List.replicate 10 "z") (by decide)⟩

theorem wrapStep_eq_spec (step lower upper cur : Int) (h : lower ≤ upper) :
    wrapStep step lower upper cur = specWrapStep step lower upper cur := by
  unfold wrapStep specWrapStep
  have hm0 : 0 < upper - lower + 1 := by omega
  split_ifs with h1 h2 h3 h4 h5
  · omega
  · have e : cur + step - upper - 1 = (cur + step - lower) + (upper - lower + 1) * (-1) := by
      ring
    rw [e, Int.add_mul_emod_self_left]
  · omega
  · have hd0 : 0 ≤ lower - (cur + step) - 1 := by omega
    have hr0 : 0 ≤ (lower - (cur + step) - 1) % (upper - lower + 1) :=
      Int.emod_nonneg _ (by omega)
    have hr1 : (lower - (cur + step) - 1) % (upper - lower + 1) < upper - lower + 1 :=
      Int.emod_lt_of_pos _ hm0
    have ed : (lower - (cur + step) - 1) % (upper - lower + 1)
        = (lower - (cur + step) - 1) - (upper - lower + 1) * ((lower - (cur + step) - 1) / (upper - lower + 1)) :=
      Int.emod_def _ _
    have key : (cur + step - lower) % (upper - lower + 1)
        = (upper - lower + 1) - 1 - (lower - (cur + step) - 1) % (upper - lower + 1) := by
      have e1 : (cur + step - lower) % (upper - lower + 1)
          = ((upper - lower + 1) - 1 - (lower - (cur + step) - 1) % (upper - lower + 1)) % (upper - lower + 1) := by
        rw [Int.emod_eq_emod_iff_emod_sub_eq_zero]
        have e2 : cur + step - lower - ((upper - lower + 1) - 1 - (lower - (cur + step) - 1) % (upper - lower + 1))
            = (upper - lower + 1) * (-((lower - (cur + step) - 1) / (upper - lower + 1)) - 1) := by
          rw [ed]
          ring
        rw [e2]
        exact Int.mul_emod_right _ _
      rw [e1]
      exact Int.emod_eq_of_lt (by omega) (by omega)
    omega
  · rfl
  · omega

theorem cyclicFill_eq_spec (pre : String) (step lower upper : Int) (h : lower ≤ upper) :
    ∀ (n : Nat) (cur : Int),
      cyclicFill pre step lower upper n cur = specCyclicFill pre step lower upper n cur := by
  intro n
  induction n with
  | zero => intro cur; rfl
  | succ k ih =>
    intro cur
    simp only [cyclicFill, specCyclicFill, ih, wrapStep_eq_spec step lower upper cur h]

/-- C5: for well-formed bounds (and a seed numeric part inside them, as the
claim scopes it), the source's bounded-cyclic generator agrees step by step
with the specification's rule "wrap the numeric part back into
`[lower, upper]` by modular arithmetic whenever a step would carry it outside,
preserving the prefix"; and the claim's concrete instance — seed `"3"`,
step 2, bounds `[1,5]`, count 4 — yields exactly `["3","5","2","4"]`. -/
theorem claim_c5_bounded_cyclic :
    (∀ step lower upper cur : Int, lower ≤ upper →
      wrapStep step lower upper cur = specWrapStep step lower upper cur) ∧
    (∀ (pre : String) (step lower upper : Int) (n : Nat) (n0 : Int),
      lower ≤ upper → lower ≤ n0 → n0 ≤ upper →
      cyclicFill pre step lower upper n n0 = specCyclicFill pre step lower upper n n0) ∧
    generateFillData FillMode.cycle "3" 4 2 1 5 = some ["3", "5", "2", "4"] := by
  refine ⟨?_, ?_, by decide⟩
  · intro step lower upper cur h
    exact wrapStep_eq_spec step lower upper cur h
  · intro pre step lower upper n n0 h _ _
    exact cyclicFill_eq_spec pre step lower upper h n n0

/-- Witness for C5 at the claim's concrete parameters. -/
theorem claim_c5_bounded_cyclic_witness :
    cyclicFill "" 2 1 5 4 3 = specCyclicFill "" 2 1 5 4 3 :=
  claim_c5_bounded_cyclic.2.1 "" 2 1 5 4 3 (by decide) (by decide) (by decide)

theorem wrapStep_mem (step lower upper cur : Int) (h : lower ≤ upper) :
    lower ≤ wrapStep step lower upper cur ∧ wrapStep step lower upper cur ≤ upper := by
  unfold wrapStep
  have hm0 : 0 < upper - lower + 1 := by omega
  split_ifs with h1 h2
  · have hr0 : 0 ≤ (cur + step - upper - 1) % (upper - lower + 1) :=
      Int.emod_nonneg _ (by omega)
    have hr1 : (cur + step - upper - 1) % (upper - lower + 1) < upper - lower + 1 :=
      Int.emod_lt_of_pos _ hm0
    omega
  · have hr0 : 0 ≤ (lower - (cur + step) - 1) % (upper - lower + 1) :=
      Int.emod_nonneg _ (by omega)
    have hr1 : (lower - (cur + step) - 1) % (upper - lower + 1) < upper - lower + 1 :=
      Int.emod_lt_of_pos _ hm0
    omega
  · omega

theorem cyclicFill_mem (pre : String) (step lower upper : Int) (h : lower ≤ upper) :
    ∀ (n : Nat) (cur : Int), lower ≤ cur → cur ≤ upper →
      ∀ v ∈ cyclicFill pre step lower upper n cur,
        ∃ m : Int, v = pre ++ toString m ∧ lower ≤ m ∧ m ≤ upper := by
  intro n
  induction n with
  | zero => intro cur _ _ v hv; simp [cyclicFill] at hv
  | succ k ih =>
    intro cur h1 h2 v hv
    rcases List.mem_cons.mp hv with he | ht
    · exact ⟨cur, he, h1, h2⟩
    · obtain ⟨w1, w2⟩ := wrapStep_mem step lower upper cur h
      exact ih (wrapStep step lower upper cur) w1 w2 v ht

/-- C9: whenever the bounded-cyclic parameters pass `_generate_fill_data`'s
validation (so the call returns a list), EVERY generated value — not only the
seed — is the prefix followed by a numeric part lying inside
`[lower, upper]`. -/
theorem claim_c9_cyclic_in_bounds :
    ∀ (seed : String) (count step lower upper : Int) (l : List String),
      generateFillData FillMode.cycle seed count step lower upper = some l →
      ∀ v ∈ l, ∃ (p : String) (m : Int), v = p ++ toString m ∧ lower ≤ m ∧ m ≤ upper := by
  intro seed count step lower upper l hgen v hv
  rcases hd : seedDecompose seed with _ | ⟨p, n⟩ <;>
    simp only [generateFillData, hd] at hgen
  · split at hgen <;> simp at hgen
  · by_cases hc : count ≤ 0
    · simp [hc] at hgen
    · rw [if_neg hc] at hgen
      by_cases h1 : upper ≤ lower
      · simp [h1] at hgen
      · rw [if_neg h1] at hgen
        by_cases h2 : n < lower ∨ upper < n
        · simp [h2] at hgen
        · rw [if_neg h2] at hgen
          by_cases h3 : upper - lower + 1 ≤ |step|
          · simp [h3] at hgen
          · rw [if_neg h3] at hgen
            have hl : cyclicFill p step lower upper count.toNat n = l :=
              Option.some.inj hgen
            have hb : lower ≤ n ∧ n ≤ upper := by
              push_neg at h2
              exact ⟨h2.1, h2.2⟩
            obtain ⟨m, hm⟩ := cyclicFill_mem p step lower upper (by omega)
              count.toNat n hb.1 hb.2 v (by rw [hl]; exact hv)
            exact ⟨p, m, hm⟩

/-- Witness for C9: the value `"5"` of the concrete run with seed `"3"`,
step 2, bounds `[1,5]`, count 4. -/
theorem claim_c9_cyclic_in_bounds_witness :
    ∃ (p : String) (m : Int), "5" = p ++ toString m ∧ (1 : Int) ≤ m ∧ m ≤ 5 :=
  claim_c9_cyclic_in_bounds "3" 4 2 1 5 ["3", "5", "2", "4"] (by decide) "5" (by decide)

/-- C6 (amended): `_generate_fill_data` fails exactly when `count <= 0`; or
arithmetic/cyclic mode is requested and the seed value neither matches the
trailing-integer regex nor parses through the `int(start_value)` fallback
(`seedDecompose`); or, in bounded-cyclic mode, `lower >= upper` (the source
rejects EQUAL bounds as well as inverted ones — this is where the claim's
"bounds are inverted" had to be widened), the seed's numeric part lies
outside `[lower, upper]`, or the bound span is not strictly greater than the
step magnitude.  The closing conjuncts pin the fallback and regex fringes
the enumeration covers: `"3 "` parses via `int` and fills, `"５"` is a
Unicode digit, `"3\n"` matches with `$` before the trailing newline, and
`"a\nb2"` is rejected outright. -/
theorem claim_c6_fill_validation :
    (∀ (mode : FillMode) (seed : String) (count step lower upper : Int),
      generateFillData mode seed count step lower upper = none ↔
        (count ≤ 0 ∨
         (mode ≠ FillMode.copy ∧ seedDecompose seed = none) ∨
         (mode = FillMode.cycle ∧ ∃ (p : String) (n : Int),
           seedDecompose seed = some (p, n) ∧
           (upper ≤ lower ∨ n < lower ∨ upper < n ∨
            upper - lower + 1 ≤ |step|)))) ∧
    seedDecompose "3 " = some ("", 3) ∧
    generateFillData FillMode.seq "3 " 3 1 0 0 = some ["3", "4", "5"] ∧
    seedDecompose "５" = some ("", 5) ∧
    decomposeSeed "3\n" = some ("", 3) ∧
    seedDecompose "a\nb2" = none := by
  refine ⟨?_, by decide, by decide, by decide, by decide, by decide⟩
  intro mode seed count step lower upper
  by_cases hc : count ≤ 0
  · simp [generateFillData, hc]
  · cases mode with
    | copy => simp [generateFillData, hc]
    | seq =>
      rcases hd : seedDecompose seed with _ | ⟨p, n⟩ <;> simp [generateFillData, hc, hd]
    | cycle =>
      rcases hd : seedDecompose seed with _ | ⟨p, n⟩
      · simp [generateFillData, hc, hd]
      · have hL : generateFillData FillMode.cycle seed count step lower upper
            = (if upper ≤ lower then none
               else if n < lower ∨ upper < n then none
               else if upper - lower + 1 ≤ |step| then (none : Option (List String))
               else some (cyclicFill p step lower upper count.toNat n)) := by
          simp only [generateFillData, hd, if_neg hc]
        have lhs_iff :
            (if upper ≤ lower then none
             else if n < lower ∨ upper < n then none
             else if upper - lower + 1 ≤ |step| then (none : Option (List String))
             else some (cyclicFill p step lower upper count.toNat n)) = none ↔
              (upper ≤ lower ∨ n < lower ∨ upper < n ∨
               upper - lower + 1 ≤ |step|) := by
          split_ifs with h1 h2 h3
          · exact ⟨fun _ => Or.inl h1, fun _ => rfl⟩
          · exact ⟨fun _ => Or.inr (h2.imp id Or.inl), fun _ => rfl⟩
          · exact ⟨fun _ => Or.inr (Or.inr (Or.inr h3)), fun _ => rfl⟩
          · constructor
            · intro hx
              simp at hx
            · intro hx
              push_neg at h2
              rcases hx with h | h | h | h <;> omega
        rw [hL, lhs_iff]
        constructor
        · intro h
          exact Or.inr (Or.inr ⟨rfl, p, n, rfl, h⟩)
        · rintro (h | ⟨_, hno⟩ | ⟨_, p', n', heq, hcond⟩)
          · exact absurd h hc
          · simp at hno
          · have hn : n = n' := congrArg Prod.snd (Option.some.inj heq)
            subst hn
            exact hcond

/-- C6 counterexample: with seed `"3"`, count 1, step 0 and the degenerate
bounds `lower = upper = 3`, the source fails (`lower >= upper` check) even
though none of the claim's listed failure conditions holds: the count is
positive, the seed decomposes, the bounds are not inverted, the numeric part 3
lies inside `[3, 3]`, and the span 1 IS strictly greater than `|0|`. -/
theorem claim_c6_counterexample :
    generateFillData FillMode.cycle "3" 1 0 3 3 = none ∧
    ¬((1 : Int) ≤ 0) ∧
    seedDecompose "3" = some ("", 3) ∧
    ¬((3 : Int) < (3 : Int)) ∧
    ¬((3 : Int) < (3 : Int)) ∧
    ¬((3 : Int) - 3 + 1 ≤ |(0 : Int)|) := by
  decide

/-- C8 (amended): the fuzzy branch of `find_next_header` reports a header as
a match exactly when the case-insensitive similarity score STRICTLY exceeds
70 (`fuzz.ratio(...) > 70`); a score of exactly 70 does not match.  The
claim's concrete instances hold: `"Naem"` vs `"Name"` scores 75 and matches,
`"Naem"` vs `"Quantity"` scores below 70 and does not match. -/
theorem claim_c8_fuzzy_threshold :
    (∀ term header : String,
      fuzzyHeaderMatch term header = true ↔ 70 < fuzzScore (strLower term) (strLower header)) ∧
    fuzzyHeaderMatch "Naem" "Name" = true ∧
    fuzzScore "naem" "name" = 75 ∧
    fuzzyHeaderMatch "Naem" "Quantity" = false ∧
    fuzzScore "naem" "quantity" < 70 := by
  refine ⟨?_, by decide, by decide, by decide, by decide⟩
  intro term header
  simp [fuzzyHeaderMatch]

/-- C8 counterexample: the header pair `"aaaaaaabbb"` / `"aaaaaaaccc"` has
similarity score exactly 70 — meeting the threshold of 70 — yet the source's
strict comparison reports NO match, refuting "matches exactly when the score
meets the threshold of 70". -/
theorem claim_c8_counterexample :
    fuzzScore "aaaaaaabbb" "aaaaaaaccc" = 70 ∧
    fuzzyHeaderMatch "aaaaaaabbb" "aaaaaaaccc" = false := by
  decide

theorem takeWhile_append_all {α : Type} (q : α → Bool) (l1 l2 : List α)
    (h : ∀ a ∈ l1, q a = true) :
    (l1 ++ l2).takeWhile q = l1 ++ l2.takeWhile q := by
  induction l1 with
  | nil => simp
  | cons a l ih =>
    simp only [List.cons_append, List.takeWhile_cons, h a (List.mem_cons_self a l), if_true]
    rw [ih (fun b hb => h b (List.mem_cons_of_mem a hb))]

theorem dropWhile_append_all {α : Type} (q : α → Bool) (l1 l2 : List α)
    (h : ∀ a ∈ l1, q a = true) :
    (l1 ++ l2).dropWhile q = l2.dropWhile q := by
  induction l1 with
  | nil => simp
  | cons a l ih =>
    simp only [List.cons_append, List.dropWhile_cons, h a (List.mem_cons_self a l), if_true]
    exact ih (fun b hb => h b (List.mem_cons_of_mem a hb))

/-- C10: the seed decomposition splits at the MAXIMAL trailing digit run
only, so the prefix may itself contain digits: every seed of the form
`prefix ++ digits` — the digits a non-empty run of Unicode decimal digits,
the prefix neither ending in such a digit (which would extend the run) nor
containing a newline (which defeats the regex) — decomposes into that prefix
and that trailing number.  In particular `"A1B2"` decomposes as
`("A1B", 2)`, a full-width digit extends the run (`"\uFF21\uFF15" ++ "3"`
decomposes as prefix `"\uFF21"` with number 53), and arithmetic and
bounded-cyclic fills on `"A1B2"` are permitted and step only the trailing
run. -/
theorem claim_c10_seed_decomposition :
    (∀ (p d : List Char), d ≠ [] → (∀ c ∈ d, (pyDigitVal c).isSome = true) →
      (p.reverse.head?.elim true (fun c => !(pyDigitVal c).isSome)) = true →
      '\n' ∉ p →
      decomposeSeed (String.mk (p ++ d)) = some (String.mk p, ndDigitsToNat d)) ∧
    decomposeSeed "A1B2" = some ("A1B", 2) ∧
    decomposeSeed "Ａ５3" = some ("Ａ", 53) ∧
    generateFillData FillMode.seq "A1B2" 3 1 0 0 = some ["A1B2", "A1B3", "A1B4"] ∧
    generateFillData FillMode.cycle "A1B2" 3 1 1 9 = some ["A1B2", "A1B3", "A1B4"] := by
  refine ⟨?_, by decide, by decide, by decide, by decide⟩
  intro p d hd hdig hlast hnl
  have hrevtail : (p.reverse.takeWhile (fun c => (pyDigitVal c).isSome)) = [] ∧
      (p.reverse.dropWhile (fun c => (pyDigitVal c).isSome)) = p.reverse := by
    cases hrev : p.reverse with
    | nil => simp
    | cons c rest =>
      rw [hrev] at hlast
      simp only [List.head?_cons, Option.elim] at hlast
      have hc : (pyDigitVal c).isSome = false := by
        cases hcd : (pyDigitVal c).isSome
        · rfl
        · rw [hcd] at hlast; simp at hlast
      constructor
      · simp [List.takeWhile_cons, hc]
      · simp [List.dropWhile_cons, hc]
  obtain ⟨c0, dtl, hdr⟩ : ∃ c0 dtl, d.reverse = c0 :: dtl := by
    cases hdr : d.reverse with
    | nil =>
      have hnil : d = [] := by simpa using congrArg List.reverse hdr
      exact absurd hnil hd
    | cons c0 dtl => exact ⟨c0, dtl, rfl⟩
  have hc0 : (pyDigitVal c0).isSome = true :=
    hdig c0 (List.mem_reverse.mp (hdr ▸ List.mem_cons_self c0 dtl))
  have hc0ne : c0 ≠ '\n' := by
    intro he
    rw [he] at hc0
    exact absurd hc0 (by decide)
  have h1 : stripTrailingNewline ((String.mk (p ++ d)).data.reverse)
      = d.reverse ++ p.reverse := by
    show stripTrailingNewline ((p ++ d).reverse) = d.reverse ++ p.reverse
    rw [List.reverse_append, hdr]
    simp only [List.cons_append, stripTrailingNewline]
    rw [if_neg hc0ne]
  have h2 : (d.reverse ++ p.reverse).takeWhile (fun c => (pyDigitVal c).isSome)
      = d.reverse := by
    rw [takeWhile_append_all _ _ _ (fun a ha => hdig a (List.mem_reverse.mp ha)),
      hrevtail.1, List.append_nil]
  have h3 : (d.reverse ++ p.reverse).dropWhile (fun c => (pyDigitVal c).isSome)
      = p.reverse := by
    rw [dropWhile_append_all _ _ _ (fun a ha => hdig a (List.mem_reverse.mp ha)),
      hrevtail.2]
  have h4 : d.reverse.isEmpty = false := by
    rw [hdr]
    rfl
  have h5 : (p.reverse).contains '\n' = false := by
    cases hc : (p.reverse).contains '\n'
    · rfl
    · exact absurd (List.mem_reverse.mp (List.mem_of_elem_eq_true hc)) hnl
  simp only [decomposeSeed, h1, h2, h3, h4, h5, Bool.or_self, Bool.false_eq_true, if_false]
  simp [List.reverse_reverse]

/-- Witness for C10: the general decomposition law applied to prefix `['A']`
and trailing digits `['1']`. -/
theorem claim_c10_seed_decomposition_witness :
    decomposeSeed (String.mk (['A'] ++ ['1'])) = some (String.mk ['A'], ndDigitsToNat ['1']) :=
  claim_c10_seed_decomposition.1 ['A'] ['1'] (by decide) (by decide) (by decide) (by decide)
